import Mathlib

/-!
Verification of the Clerk webhook receiver in `server/apps/users/`
(`views.py`, `schemas.py`, `models.py`).

The development shallowly embeds the webhook pipeline:
  * a JSON value model (the output of `json.loads`),
  * the Pydantic schema validation of `schemas.py` (`ClerkUser`,
    `ClerkWebhookEvent`, the `to_iso` timestamp normalizer),
  * the database model of `models.py` (the tenant-user table, stored as a
    list of rows keyed by `user_id`),
  * the request handler of `views.py` (`ClerkWebhook.post`, `sync_user`,
    `delete_user`), with the external svix signature check abstracted by
    a boolean oracle (its outcome on this request).
-/

namespace Clerk

/-- A parsed JSON document, as produced by Python's `json.loads`.
`jobj` models the resulting `dict` as an association list; since
`json.loads` keeps the last of duplicate keys, `lookup` below is
last-occurrence-wins.  (JSON floats are not modelled; no claim involves
them.) -/
inductive Json where
  | jnull : Json
  | jbool (b : Bool) : Json
  | jint (n : Int) : Json
  | jstr (s : String) : Json
  | jarr (xs : List Json) : Json
  | jobj (kvs : List (String × Json)) : Json

mutual

/-- Python `str(value)` on a parsed JSON value (used by `to_iso`'s
fallback branch `return str(value)`).  String escaping inside nested
reprs is approximated by plain single quotes; no claim depends on the
exact text of this fallback. -/
def pyRepr : Json → String
  | Json.jnull => "None"
  | Json.jbool b => if b then "True" else "False"
  | Json.jint n => toString n
  | Json.jstr s => s
  | Json.jarr xs => "[" ++ pyReprArr xs ++ "]"
  | Json.jobj kvs => "\x7b" ++ pyReprObj kvs ++ "\x7d"

/-- Comma-separated reprs of the elements of a Python list. -/
def pyReprArr : List Json → String
  | [] => ""
  | [x] => pyReprItem x
  | x :: y :: rest => pyReprItem x ++ ", " ++ pyReprArr (y :: rest)

/-- Comma-separated `'key': value` reprs of the items of a Python dict. -/
def pyReprObj : List (String × Json) → String
  | [] => ""
  | [(k, v)] => "'" ++ k ++ "': " ++ pyReprItem v
  | (k, v) :: y :: rest =>
      "'" ++ k ++ "': " ++ pyReprItem v ++ ", " ++ pyReprObj (y :: rest)

/-- Repr of a value nested inside a container: strings are quoted there. -/
def pyReprItem : Json → String
  | Json.jstr s => "'" ++ s ++ "'"
  | j => pyRepr j

end

/-- Left-pad the decimal representation of `n` with zeros to width `w`
(the zero padding of `datetime.isoformat`). -/
def padN (w : Nat) (n : Nat) : String :=
  let s := toString n
  if s.length < w then String.mk (List.replicate (w - s.length) '0') ++ s else s

/-- Year component of `isoformat`, padded to four digits. -/
def padYear (y : Int) : String :=
  if y < 0 then "-" ++ padN 4 (-y).toNat else padN 4 y.toNat

/-- Proleptic-Gregorian civil date from a count of days since 1970-01-01
(the calendar arithmetic inside Python's `datetime.utcfromtimestamp`).
Returns `(year, month, day)`. -/
def civilFromDays (z0 : Int) : Int × Nat × Nat :=
  let z : Int := z0 + 719468
  let era : Int := Int.fdiv z 146097
  let doe : Nat := (z - era * 146097).toNat
  let yoe : Nat := (doe - doe / 1460 + doe / 36524 - doe / 146096) / 365
  let doy : Nat := doe - (365 * yoe + yoe / 4 - yoe / 100)
  let mp : Nat := (5 * doy + 2) / 153
  let d : Nat := doy - (153 * mp + 2) / 5 + 1
  let m : Nat := if mp < 10 then mp + 3 else mp - 9
  (era * 400 + (yoe : Int) + (if m ≤ 2 then 1 else 0), m, d)

/-- `datetime.utcfromtimestamp(n / 1000).isoformat()` for an integer `n`
of milliseconds since the Unix epoch: the ISO-8601 text
`YYYY-MM-DDTHH:MM:SS`, with a `.ffffff` microsecond suffix exactly when
the millisecond remainder is nonzero (float division by 1000 is exact at
microsecond granularity). -/
def isoOfMillis (n : Int) : String :=
  let secs : Int := Int.fdiv n 1000
  let micro : Nat := (Int.emod n 1000).toNat * 1000
  let days : Int := Int.fdiv secs 86400
  let sod : Nat := (Int.emod secs 86400).toNat
  let ymd := civilFromDays days
  let frac := if micro = 0 then "" else "." ++ padN 6 micro
  padYear ymd.1 ++ "-" ++ padN 2 ymd.2.1 ++ "-" ++ padN 2 ymd.2.2 ++ "T" ++
    padN 2 (sod / 3600) ++ ":" ++ padN 2 (sod % 3600 / 60) ++ ":" ++
    padN 2 (sod % 60) ++ frac

/-- `schemas.to_iso` applied to a present JSON field value: `None` stays
`None`; an `int` (Python `bool` included, being an `int` subclass) is
read as epoch milliseconds and converted; everything else goes through
`str(value)` (a `str` unchanged). -/
def to_iso : Json → Option String
  | Json.jnull => Option.none
  | Json.jint n => some (isoOfMillis n)
  | Json.jbool b => some (isoOfMillis (if b then 1 else 0))
  | Json.jstr s => some s
  | Json.jarr xs => some (pyRepr (Json.jarr xs))
  | Json.jobj kvs => some (pyRepr (Json.jobj kvs))

/-- `schemas.ClerkEmail`: one entry of the user's email list. -/
structure ClerkEmail where
  id : String
  email_address : String
deriving DecidableEq

/-- `schemas.ClerkPhone`: one entry of the user's phone list. -/
structure ClerkPhone where
  id : String
  phone_number : String
deriving DecidableEq

/-- `schemas.ClerkUser` after validation.  `Option` fields model Python
values that may be `None` (`Optional[...]`); the timestamps are already
normalized to strings by the `convert_timestamps` before-validator. -/
structure ClerkUser where
  id : String
  first_name : Option String
  last_name : Option String
  image_url : Option String
  two_factor_enabled : Option Bool
  created_at : Option String
  updated_at : Option String
  last_active_at : Option String
  email_addresses : List ClerkEmail
  primary_email_address_id : Option String
  phone_numbers : List ClerkPhone
  primary_phone_number_id : Option String
deriving DecidableEq

/-- `schemas.ClerkWebhookEvent` after validation. -/
structure ClerkWebhookEvent where
  type : String
  data : ClerkUser
deriving DecidableEq

/-- Key lookup in a parsed JSON object.  `json.loads` builds a `dict`
keeping the last duplicate, so the later occurrence wins. -/
def lookup : List (String × Json) → String → Option Json
  | [], _ => Option.none
  | p :: rest, k =>
    match lookup rest k with
    | some v => some v
    | Option.none => if p.1 == k then some p.2 else Option.none

/-- A required `str` field: present and a JSON string, else invalid. -/
def reqStr (o : Option Json) : Option String :=
  match o with
  | some (Json.jstr s) => some s
  | _ => Option.none

/-- An `Optional[str]` field with default `d`: absent takes the default,
`null` becomes `None`, a string is itself, anything else is invalid. -/
def optStrD (d : Option String) (o : Option Json) : Option (Option String) :=
  match o with
  | Option.none => some d
  | some Json.jnull => some Option.none
  | some (Json.jstr s) => some (some s)
  | _ => Option.none

/-- The `Optional[bool] = False` field: absent defaults to `False`,
`null` becomes `None`, a JSON boolean is itself, else invalid. -/
def optBool (o : Option Json) : Option (Option Bool) :=
  match o with
  | Option.none => some (some false)
  | some Json.jnull => some Option.none
  | some (Json.jbool b) => some (some b)
  | _ => Option.none

/-- An `Optional[Union[int, str]] = None` timestamp field, whose
`mode="before"` validator applies `to_iso`: absent keeps the default
`None` (before-validators do not run on defaults); a present value is
normalized by `to_iso`, whose output (`None` or a `str`) always
satisfies the field type, so a present value never fails. -/
def optTime (o : Option Json) : Option (Option String) :=
  match o with
  | Option.none => some Option.none
  | some j => some (to_iso j)

/-- A `List[...] = []` field parsed elementwise by `f`: absent defaults
to the empty list; a JSON array validates each element; else invalid. -/
def optList {α : Type} (f : Json → Option α) (o : Option Json) : Option (List α) :=
  match o with
  | Option.none => some []
  | some (Json.jarr xs) => xs.mapM f
  | _ => Option.none

/-- Pydantic validation of a `ClerkEmail` (extra keys ignored, the
default `model_config`). -/
def validateEmail : Json → Option ClerkEmail
  | Json.jobj kvs => do
    let i ← reqStr (lookup kvs "id")
    let a ← reqStr (lookup kvs "email_address")
    some ⟨i, a⟩
  | _ => Option.none

/-- Pydantic validation of a `ClerkPhone` (extra keys ignored). -/
def validatePhone : Json → Option ClerkPhone
  | Json.jobj kvs => do
    let i ← reqStr (lookup kvs "id")
    let p ← reqStr (lookup kvs "phone_number")
    some ⟨i, p⟩
  | _ => Option.none

/-- The declared field names of `schemas.ClerkUser`; any other key in
the `data` object is an unknown field. -/
def userKeys : List String :=
  ["id", "first_name", "last_name", "image_url", "two_factor_enabled",
   "created_at", "updated_at", "last_active_at",
   "email_addresses", "primary_email_address_id",
   "phone_numbers", "primary_phone_number_id"]

/-- `ClerkUser.model_validate` on a parsed JSON value: only a JSON
object is accepted; each declared field is read with its own rule;
unknown keys are ignored (Pydantic's default `extra="ignore"`). -/
def validateClerkUser : Json → Option ClerkUser
  | Json.jobj kvs => do
    let i ← reqStr (lookup kvs "id")
    let fn ← optStrD (some "") (lookup kvs "first_name")
    let ln ← optStrD (some "") (lookup kvs "last_name")
    let img ← optStrD (some "") (lookup kvs "image_url")
    let tf ← optBool (lookup kvs "two_factor_enabled")
    let ca ← optTime (lookup kvs "created_at")
    let ua ← optTime (lookup kvs "updated_at")
    let la ← optTime (lookup kvs "last_active_at")
    let ems ← optList validateEmail (lookup kvs "email_addresses")
    let pem ← optStrD Option.none (lookup kvs "primary_email_address_id")
    let phs ← optList validatePhone (lookup kvs "phone_numbers")
    let pph ← optStrD Option.none (lookup kvs "primary_phone_number_id")
    some ⟨i, fn, ln, img, tf, ca, ua, la, ems, pem, phs, pph⟩
  | _ => Option.none

/-- `ClerkWebhookEvent.model_validate` on the parsed body: requires a
string `type` and a `data` object validating as a `ClerkUser`. -/
def validateEvent : Json → Option ClerkWebhookEvent
  | Json.jobj kvs => do
    let t ← reqStr (lookup kvs "type")
    let d ←
      match lookup kvs "data" with
      | some j => validateClerkUser j
      | Option.none => Option.none
    some ⟨t, d⟩
  | _ => Option.none

/-- One row of the tenant-user table declared in `models.py` (the class
there is written `User`; `views.py`, `admin.py` and `tests.py` import it
as `TenantUser`).  Field order follows the source. -/
structure TenantUser where
  user_id : String
  first_name : String
  last_name : String
  primary_email : String
  phone_number : String
  is_creator : Bool
  is_signedin : Bool
  created_at : String
  updated_at : String
  last_active_at : String
  locked : Bool
  banned : Bool
  profile_image : String
  two_factor_enabled : Bool
deriving DecidableEq

/-- The table contents: a list of rows.  The primary key keeps
`user_id` unique in any real database state; the operations below use
only first-match lookup, mirroring the ORM key queries. -/
abbrev Store : Type := List TenantUser

/-- `TenantUser.objects.get / filter(user_id=uid).first()`: the row with
the given key, if any. -/
def findUser (db : Store) (uid : String) : Option TenantUser :=
  List.find? (fun r => r.user_id == uid) db

/-- The `defaults` dictionary passed to `update_or_create` in
`sync_user`: every mapped field with its freshly resolved value. -/
structure SyncDefaults where
  first_name : String
  last_name : String
  primary_email : String
  phone_number : String
  profile_image : String
  two_factor_enabled : Bool
  is_signedin : Bool
  created_at : String
  updated_at : String
  last_active_at : String
deriving DecidableEq

/-- The update arm of `update_or_create`: set every field of `defaults`
on the existing row, leaving `user_id`, `is_creator`, `locked` and
`banned` as they were. -/
def applyDefaults (r : TenantUser) (d : SyncDefaults) : TenantUser :=
  { r with
    first_name := d.first_name
    last_name := d.last_name
    primary_email := d.primary_email
    phone_number := d.phone_number
    profile_image := d.profile_image
    two_factor_enabled := d.two_factor_enabled
    is_signedin := d.is_signedin
    created_at := d.created_at
    updated_at := d.updated_at
    last_active_at := d.last_active_at }

/-- The create arm of `update_or_create`: a fresh row from the key and
the defaults; `is_creator`, `locked` and `banned` take the model-field
defaults `False`. -/
def newUser (uid : String) (d : SyncDefaults) : TenantUser :=
  { user_id := uid
    first_name := d.first_name
    last_name := d.last_name
    primary_email := d.primary_email
    phone_number := d.phone_number
    is_creator := false
    is_signedin := d.is_signedin
    created_at := d.created_at
    updated_at := d.updated_at
    last_active_at := d.last_active_at
    locked := false
    banned := false
    profile_image := d.profile_image
    two_factor_enabled := d.two_factor_enabled }

/-- `TenantUser.objects.update_or_create(user_id=uid, defaults=...)`:
update the row with that key if one exists (`created = False`),
otherwise insert a new row (`created = True`). -/
def update_or_create (uid : String) (d : SyncDefaults) (db : Store) :
    Store × Bool :=
  match List.find? (fun r => r.user_id == uid) db with
  | some _ =>
      (db.map (fun r => if r.user_id == uid then applyDefaults r d else r), false)
  | Option.none => (db ++ [newUser uid d], true)

/-- The primary-email resolution of `sync_user`: `None` when the list is
empty, else `next((e.email_address for e in ... if e.id == primary_email_address_id), first.email_address)`. -/
def resolveEmail (u : ClerkUser) : Option String :=
  match u.email_addresses with
  | [] => Option.none
  | e0 :: _ =>
    some ((Option.map (fun e => e.email_address)
      (List.find? (fun e => u.primary_email_address_id == some e.id)
        u.email_addresses)).getD e0.email_address)

/-- The primary-phone resolution of `sync_user`, the same scan over the
phone list. -/
def resolvePhone (u : ClerkUser) : Option String :=
  match u.phone_numbers with
  | [] => Option.none
  | p0 :: _ =>
    some ((Option.map (fun p => p.phone_number)
      (List.find? (fun p => u.primary_phone_number_id == some p.id)
        u.phone_numbers)).getD p0.phone_number)

/-- The `defaults` dictionary built in `sync_user`, with every `x or y`
fallback of the source (`Option.getD` agrees with Python `or` here
because the fallbacks are `""`/`False`, the falsy values themselves). -/
def syncDefaults (u : ClerkUser) : SyncDefaults :=
  { first_name := u.first_name.getD ""
    last_name := u.last_name.getD ""
    primary_email := (resolveEmail u).getD ""
    phone_number := (resolvePhone u).getD ""
    profile_image := u.image_url.getD ""
    two_factor_enabled := u.two_factor_enabled.getD false
    is_signedin := true
    created_at := u.created_at.getD ""
    updated_at := u.updated_at.getD ""
    last_active_at := u.last_active_at.getD "" }

/-- The body of a DRF response: `{"message": ...}` or `{"error": ...}`. -/
inductive RespBody where
  | message (s : String) : RespBody
  | error (s : String) : RespBody
deriving DecidableEq

/-- A DRF response: HTTP status plus body. -/
structure Response where
  status : Nat
  body : RespBody
deriving DecidableEq

/-- `views.ok`: a 200 response with a message body. -/
def ok (m : String) : Response := ⟨200, RespBody.message m⟩

/-- `views.bad` at its default code: a 400 response with an error body. -/
def bad (m : String) : Response := ⟨400, RespBody.error m⟩

/-- `ClerkWebhook.sync_user`: resolve the primary contacts, upsert the
row keyed by `user.id`, answer `"User created"` or `"User updated"`
according to the `created` flag. -/
def sync_user (u : ClerkUser) (db : Store) : Store × Response :=
  let res := update_or_create u.id (syncDefaults u) db
  (res.1, ok (if res.2 then "User created" else "User updated"))

/-- `ClerkWebhook.delete_user`:
`TenantUser.objects.filter(user_id=user_id).delete()` keeps exactly the
rows with a different key, and the response is always the same success
message. -/
def delete_user (uid : String) (db : Store) : Store × Response :=
  (db.filter (fun r => !(r.user_id == uid)), ok "User deleted")

/-- The three svix signature headers read from the request (a missing
header is `None`). -/
structure Headers where
  svix_id : Option String
  svix_timestamp : Option String
  svix_signature : Option String
deriving DecidableEq

/-- Outcome of the external `svix` check `Webhook(secret).verify(body,
headers)` as caught by the handler's `try/except`: it raises whenever
one of the three headers is missing, and otherwise succeeds exactly when
the cryptographic check passes — the latter is external code, abstracted
by the boolean `crypto` (its outcome on this request). -/
def svixVerifyOk (crypto : Bool) (h : Headers) : Bool :=
  h.svix_id.isSome && h.svix_timestamp.isSome && h.svix_signature.isSome && crypto

/-- `ClerkWebhook.post` on a request whose body parsed as the JSON
document `body`: verify the signature, validate the payload, then route
on `event.type`. -/
def post (crypto : Bool) (h : Headers) (body : Json) (db : Store) :
    Store × Response :=
  if svixVerifyOk crypto h then
    match validateEvent body with
    | some ev =>
      if ev.type == "user.created" || ev.type == "user.updated" then
        sync_user ev.data db
      else if ev.type == "user.deleted" then
        delete_user ev.data.id db
      else (db, ok "Event ignored")
    | Option.none => (db, bad "Invalid payload format")
  else (db, bad "Invalid webhook signature")

/-- The database constraint declared in `models.py` by
`primary_email = models.EmailField(..., unique=True)`: all rows carry
pairwise distinct `primary_email` values. -/
def emailsUniqueB : Store → Bool
  | [] => true
  | r :: rest =>
    rest.all (fun x => !(x.primary_email == r.primary_email)) && emailsUniqueB rest

/-- The `sync_user` write as executed against the declared schema: the
database accepts the upsert only when the resulting table still
satisfies the `unique=True` constraint on `primary_email`, and raises
`IntegrityError` (here `none`) otherwise. -/
def db_sync (u : ClerkUser) (db : Store) : Option Store :=
  let db2 := (update_or_create u.id (syncDefaults u) db).1
  if emailsUniqueB db2 then some db2 else Option.none

/-- The `delete_user` write (a row deletion cannot violate the unique
constraint). -/
def db_delete (uid : String) (db : Store) : Store :=
  (delete_user uid db).1

/-- Table states reachable through this system's writes (the webhook
sync and delete paths) starting from the empty table, with the
database enforcing the declared `unique=True` constraint. -/
inductive Reachable : Store → Prop
  | empty : Reachable []
  | sync (u : ClerkUser) (db db2 : Store) :
      Reachable db → db_sync u db = some db2 → Reachable db2
  | del (uid : String) (db : Store) :
      Reachable db → Reachable (db_delete uid db)

/-- The user snapshot of the end-to-end scenario in `tests.py`
(`user_123`, one email and one phone, both pointed to as primary). -/
def sampleUser : ClerkUser :=
  { id := "user_123"
    first_name := some "Test"
    last_name := some "User"
    image_url := some "http://example.com/image.jpg"
    two_factor_enabled := some false
    created_at := some "2023-01-01T00:00:00"
    updated_at := some "2023-01-01T00:00:00"
    last_active_at := some "2023-01-01T00:00:00"
    email_addresses := [⟨"email_1", "test@example.com"⟩]
    primary_email_address_id := some "email_1"
    phone_numbers := [⟨"phone_1", "+1234567890"⟩]
    primary_phone_number_id := some "phone_1" }

/-- A request with all three svix headers present. -/
def sampleHeaders : Headers :=
  ⟨some "msg_123", some "1234567890", some "v1,signature"⟩

/-- A pre-existing row for `user_123` with both moderation flags on,
used to observe the frame condition on `locked`/`banned`. -/
def lockedRow : TenantUser :=
  { user_id := "user_123"
    first_name := "Old"
    last_name := "Row"
    primary_email := "old@example.com"
    phone_number := "+1999"
    is_creator := true
    is_signedin := false
    created_at := "old-created"
    updated_at := "old-updated"
    last_active_at := "old-active"
    locked := true
    banned := true
    profile_image := "http://example.com/old.jpg"
    two_factor_enabled := true }

/-- A user snapshot with every optional field absent (all `None` after
validation) except the identifier. -/
def bareUser : ClerkUser :=
  { id := "user_bare"
    first_name := Option.none
    last_name := Option.none
    image_url := Option.none
    two_factor_enabled := Option.none
    created_at := Option.none
    updated_at := Option.none
    last_active_at := Option.none
    email_addresses := []
    primary_email_address_id := Option.none
    phone_numbers := []
    primary_phone_number_id := Option.none }

/-- A minimal user snapshot with identifier `a` and one email. -/
def userA : ClerkUser :=
  { bareUser with
    id := "a"
    email_addresses := [⟨"e1", "a@example.com"⟩]
    primary_email_address_id := some "e1" }

/-- A minimal user snapshot with identifier `b` and one email. -/
def userB : ClerkUser :=
  { bareUser with
    id := "b"
    email_addresses := [⟨"e2", "b@example.com"⟩]
    primary_email_address_id := some "e2" }

end Clerk

namespace Clerk

/-- Helper: inserting a key that differs from the one looked up changes
no lookup (the shape of "an unknown field is ignored"). -/
theorem lookup_middle (k : String) (v : Json) :
    ∀ (l1 l2 : List (String × Json)) (k2 : String), k2 ≠ k →
      lookup (l1 ++ (k, v) :: l2) k2 = lookup (l1 ++ l2) k2 := by
  intro l1
  induction l1 with
  | nil =>
    intro l2 k2 hne
    show lookup ((k, v) :: l2) k2 = lookup l2 k2
    have hkk : (k == k2) = false := by
      simp only [beq_eq_false_iff_ne]
      exact fun e => hne e.symm
    cases hcase : lookup l2 k2 with
    | some w => simp [lookup, hcase]
    | none => simp [lookup, hcase, hkk]
  | cons p rest ih =>
    intro l2 k2 hne
    show lookup (p :: (rest ++ (k, v) :: l2)) k2 = lookup (p :: (rest ++ l2)) k2
    simp only [lookup]
    rw [ih l2 k2 hne]

/-- Helper: a successful `List.find?` splits the list at the first
element satisfying the predicate. -/
theorem find_first_split {α : Type} (q : α → Bool) :
    ∀ (l : List α) (a : α), List.find? q l = some a →
      ∃ l1 l2, l = l1 ++ a :: l2 ∧ q a = true ∧ ∀ x ∈ l1, q x = false := by
  intro l
  induction l with
  | nil => intro a h; simp [List.find?] at h
  | cons x rest ih =>
    intro a h
    cases hx : q x with
    | true =>
      rw [List.find?_cons_of_pos _ hx] at h
      cases h
      exact ⟨[], rest, rfl, hx, by intro y hy; cases hy⟩
    | false =>
      rw [List.find?_cons_of_neg _ (by simp [hx])] at h
      obtain ⟨l1, l2, he, hq, hall⟩ := ih a h
      refine ⟨x :: l1, l2, by simp [he], hq, ?_⟩
      intro y hy
      rcases List.mem_cons.mp hy with rfl | hy2
      · exact hx
      · exact hall y hy2

/-- Helper: `applyDefaults` leaves the key unchanged. -/
theorem applyDefaults_user_id (r : TenantUser) (d : SyncDefaults) :
    (applyDefaults r d).user_id = r.user_id := rfl

/-- Helper: after the update arm of `update_or_create`, the key lookup
returns the old row with the defaults applied. -/
theorem findUser_update (uid : String) (d : SyncDefaults) :
    ∀ (db : Store) (r : TenantUser),
      List.find? (fun x => x.user_id == uid) db = some r →
      findUser (db.map (fun x => if x.user_id == uid then applyDefaults x d else x)) uid
        = some (applyDefaults r d) := by
  intro db
  induction db with
  | nil => intro r h; simp [List.find?] at h
  | cons x rest ih =>
    intro r h
    cases hx : (x.user_id == uid) with
    | true =>
      rw [List.find?_cons_of_pos (p := fun y : TenantUser => y.user_id == uid) _ hx] at h
      cases h
      have hx2 : ((applyDefaults x d).user_id == uid) = true := by
        rw [applyDefaults_user_id]; exact hx
      simp only [findUser, List.map]
      rw [if_pos hx, List.find?_cons_of_pos (p := fun y : TenantUser => y.user_id == uid) _ hx2]
    | false =>
      rw [List.find?_cons_of_neg (p := fun y : TenantUser => y.user_id == uid) _ (by simp [hx])] at h
      simp only [findUser, List.map]
      rw [if_neg (by simp [hx]),
        List.find?_cons_of_neg (p := fun y : TenantUser => y.user_id == uid) _ (by simp [hx])]
      exact ih r h

/-- Helper: after the create arm of `update_or_create`, the key lookup
returns the appended fresh row. -/
theorem findUser_insert (uid : String) (d : SyncDefaults) (db : Store)
    (h : findUser db uid = Option.none) :
    findUser (db ++ [newUser uid d]) uid = some (newUser uid d) := by
  unfold findUser at h ⊢
  rw [List.find?_append, h]
  simp [List.find?, newUser]

/-- C4: `delete_user` always answers the success message `"User
deleted"`; on a key with no row it leaves the table unchanged; and
deleting twice equals deleting once. -/
theorem delete_idempotent_spec (uid : String) (db : Store) :
    (delete_user uid db).2 = ok "User deleted" ∧
    (findUser db uid = Option.none → (delete_user uid db).1 = db) ∧
    (delete_user uid (delete_user uid db).1).1 = (delete_user uid db).1 := by
  refine ⟨rfl, ?_, ?_⟩
  · intro h
    simp only [delete_user]
    rw [List.filter_eq_self]
    intro a ha
    have := List.find?_eq_none.mp h a ha
    simpa using this
  · simp only [delete_user]
    rw [List.filter_filter]
    have hfun : (fun a : TenantUser =>
        (!(a.user_id == uid)) && (!(a.user_id == uid))) =
        fun a : TenantUser => !(a.user_id == uid) :=
      funext fun a => Bool.and_self _
    rw [hfun]

/-- Witness for C4 at `uid = "user_123"` on the empty table. -/
theorem delete_idempotent_spec_witness :
    (delete_user "user_123" ([] : Store)).2 = ok "User deleted" ∧
    (delete_user "user_123" ([] : Store)).1 = ([] : Store) := by
  have h := delete_idempotent_spec "user_123" ([] : Store)
  exact ⟨h.1, h.2.1 rfl⟩

/-- C5: timestamp normalization, per field: a present integer value is
converted from epoch milliseconds to its ISO-8601 string (in particular
`1672531200000` to `"2023-01-01T00:00:00"`), a present string value
passes through unchanged, and an absent value stays `None`.  `optTime`
is the per-field validation rule, applied to each of `created_at`,
`updated_at`, `last_active_at` independently. -/
theorem timestamp_normalization_spec :
    (∀ n : Int, to_iso (Json.jint n) = some (isoOfMillis n)) ∧
    to_iso (Json.jint 1672531200000) = some "2023-01-01T00:00:00" ∧
    (∀ s : String, to_iso (Json.jstr s) = some s) ∧
    (∀ n : Int, optTime (some (Json.jint n)) = some (some (isoOfMillis n))) ∧
    (∀ s : String, optTime (some (Json.jstr s)) = some (some s)) ∧
    optTime Option.none = some Option.none :=
  ⟨fun _ => rfl, by decide, fun _ => rfl, fun _ => rfl, fun _ => rfl, rfl⟩

/-- Helper: after any `sync_user`, the key lookup yields a row whose
mapped fields are exactly those of the `defaults` dictionary. -/
theorem sync_stored (u : ClerkUser) (db : Store) :
    ∃ s, findUser (sync_user u db).1 u.id = some s ∧
      s.first_name = (syncDefaults u).first_name ∧
      s.last_name = (syncDefaults u).last_name ∧
      s.primary_email = (syncDefaults u).primary_email ∧
      s.phone_number = (syncDefaults u).phone_number ∧
      s.profile_image = (syncDefaults u).profile_image ∧
      s.two_factor_enabled = (syncDefaults u).two_factor_enabled ∧
      s.is_signedin = true ∧
      s.created_at = (syncDefaults u).created_at ∧
      s.updated_at = (syncDefaults u).updated_at ∧
      s.last_active_at = (syncDefaults u).last_active_at := by
  cases hf : List.find? (fun x => x.user_id == u.id) db with
  | none =>
    refine ⟨newUser u.id (syncDefaults u), ?_,
      rfl, rfl, rfl, rfl, rfl, rfl, rfl, rfl, rfl, rfl⟩
    simp only [sync_user, update_or_create, hf]
    exact findUser_insert u.id (syncDefaults u) db hf
  | some r =>
    refine ⟨applyDefaults r (syncDefaults u), ?_,
      rfl, rfl, rfl, rfl, rfl, rfl, rfl, rfl, rfl, rfl⟩
    simp only [sync_user, update_or_create, hf]
    exact findUser_update u.id (syncDefaults u) db r hf

/-- C1: on a verified, schema-valid `user.created`/`user.updated`
envelope, `sync_user` inserts a fresh row and answers `"User created"`
when the key is absent, and on a present key answers `"User updated"`
and overwrites every mapped field of the existing row with the freshly
resolved defaults (none of the old values survives into the mapped
set); `is_signedin` is set true in both cases. -/
theorem sync_upsert_spec (u : ClerkUser) (db : Store) :
    (findUser db u.id = Option.none →
      sync_user u db = (db ++ [newUser u.id (syncDefaults u)], ok "User created") ∧
      (newUser u.id (syncDefaults u)).is_signedin = true) ∧
    (∀ r, findUser db u.id = some r →
      (sync_user u db).2 = ok "User updated" ∧
      findUser (sync_user u db).1 u.id = some (applyDefaults r (syncDefaults u)) ∧
      (applyDefaults r (syncDefaults u)).first_name = (syncDefaults u).first_name ∧
      (applyDefaults r (syncDefaults u)).last_name = (syncDefaults u).last_name ∧
      (applyDefaults r (syncDefaults u)).primary_email = (syncDefaults u).primary_email ∧
      (applyDefaults r (syncDefaults u)).phone_number = (syncDefaults u).phone_number ∧
      (applyDefaults r (syncDefaults u)).profile_image = (syncDefaults u).profile_image ∧
      (applyDefaults r (syncDefaults u)).two_factor_enabled = (syncDefaults u).two_factor_enabled ∧
      (applyDefaults r (syncDefaults u)).created_at = (syncDefaults u).created_at ∧
      (applyDefaults r (syncDefaults u)).updated_at = (syncDefaults u).updated_at ∧
      (applyDefaults r (syncDefaults u)).last_active_at = (syncDefaults u).last_active_at ∧
      (applyDefaults r (syncDefaults u)).is_signedin = true) := by
  constructor
  · intro h
    refine ⟨?_, rfl⟩
    have hf : List.find? (fun x => x.user_id == u.id) db = Option.none := h
    simp [sync_user, update_or_create, hf]
  · intro r h
    have hf : List.find? (fun x => x.user_id == u.id) db = some r := h
    refine ⟨?_, ?_, rfl, rfl, rfl, rfl, rfl, rfl, rfl, rfl, rfl, rfl⟩
    · simp [sync_user, update_or_create, hf]
    · simp only [sync_user, update_or_create, hf]
      exact findUser_update u.id (syncDefaults u) db r hf

/-- Witness for C1: a create on the empty table and an update over a
pre-existing row for `user_123`. -/
theorem sync_upsert_spec_witness :
    sync_user sampleUser [] =
      ([newUser "user_123" (syncDefaults sampleUser)], ok "User created") ∧
    (sync_user sampleUser [lockedRow]).2 = ok "User updated" ∧
    findUser (sync_user sampleUser [lockedRow]).1 "user_123" =
      some (applyDefaults lockedRow (syncDefaults sampleUser)) := by
  have h1 := (sync_upsert_spec sampleUser []).1 (by decide)
  have h2 := (sync_upsert_spec sampleUser [lockedRow]).2 lockedRow (by decide)
  exact ⟨h1.1, h2.1, h2.2.1⟩

/-- C7: `sync_user` never writes `locked` or `banned`: updating an
existing row leaves both exactly as they were, a first insert gives
them the model default `false`, and every other row keeps its values
verbatim. -/
theorem locked_banned_frame_spec (u : ClerkUser) (db : Store) :
    (findUser db u.id = Option.none →
      findUser (sync_user u db).1 u.id = some (newUser u.id (syncDefaults u)) ∧
      (newUser u.id (syncDefaults u)).locked = false ∧
      (newUser u.id (syncDefaults u)).banned = false) ∧
    (∀ r, findUser db u.id = some r →
      findUser (sync_user u db).1 u.id = some (applyDefaults r (syncDefaults u)) ∧
      (applyDefaults r (syncDefaults u)).locked = r.locked ∧
      (applyDefaults r (syncDefaults u)).banned = r.banned) ∧
    (∀ r, r ∈ db → ∃ s, s ∈ (sync_user u db).1 ∧ s.user_id = r.user_id ∧
      s.locked = r.locked ∧ s.banned = r.banned) := by
  refine ⟨?_, ?_, ?_⟩
  · intro h
    have hf : List.find? (fun x => x.user_id == u.id) db = Option.none := h
    refine ⟨?_, rfl, rfl⟩
    simp only [sync_user, update_or_create, hf]
    exact findUser_insert u.id (syncDefaults u) db hf
  · intro r h
    have hf : List.find? (fun x => x.user_id == u.id) db = some r := h
    refine ⟨?_, rfl, rfl⟩
    simp only [sync_user, update_or_create, hf]
    exact findUser_update u.id (syncDefaults u) db r hf
  · intro r hr
    cases hf : List.find? (fun x => x.user_id == u.id) db with
    | none =>
      refine ⟨r, ?_, rfl, rfl, rfl⟩
      simp only [sync_user, update_or_create, hf]
      exact List.mem_append_left _ hr
    | some r0 =>
      refine ⟨if r.user_id == u.id then applyDefaults r (syncDefaults u) else r, ?_, ?_, ?_, ?_⟩
      · simp only [sync_user, update_or_create, hf]
        exact List.mem_map_of_mem _ hr
      · cases hru : (r.user_id == u.id) <;> simp [hru, applyDefaults_user_id]
      · cases hru : (r.user_id == u.id) <;> simp [hru, applyDefaults]
      · cases hru : (r.user_id == u.id) <;> simp [hru, applyDefaults]

/-- Witness for C7: syncing `sampleUser` over a row whose `locked` and
`banned` flags are both on keeps both on. -/
theorem locked_banned_frame_spec_witness :
    findUser (sync_user sampleUser [lockedRow]).1 "user_123" =
      some (applyDefaults lockedRow (syncDefaults sampleUser)) ∧
    (applyDefaults lockedRow (syncDefaults sampleUser)).locked = true ∧
    (applyDefaults lockedRow (syncDefaults sampleUser)).banned = true := by
  have h := (locked_banned_frame_spec sampleUser [lockedRow]).2.1 lockedRow (by decide)
  exact ⟨h.1, h.2.1, h.2.2⟩

/-- C10: when a validated payload carries no `created_at`, `updated_at`
or `last_active_at` (value `None`), the synced row stores the empty
string in that column — the model columns are plain strings, so absence
is never persisted as a null. -/
theorem absent_timestamp_empty_spec (u : ClerkUser) (db : Store) :
    (u.created_at = Option.none →
      ∃ s, findUser (sync_user u db).1 u.id = some s ∧ s.created_at = "") ∧
    (u.updated_at = Option.none →
      ∃ s, findUser (sync_user u db).1 u.id = some s ∧ s.updated_at = "") ∧
    (u.last_active_at = Option.none →
      ∃ s, findUser (sync_user u db).1 u.id = some s ∧ s.last_active_at = "") := by
  obtain ⟨s, hs, _, _, _, _, _, _, _, hca, hua, hla⟩ := sync_stored u db
  refine ⟨?_, ?_, ?_⟩
  · intro h
    exact ⟨s, hs, by rw [hca]; simp [syncDefaults, h]⟩
  · intro h
    exact ⟨s, hs, by rw [hua]; simp [syncDefaults, h]⟩
  · intro h
    exact ⟨s, hs, by rw [hla]; simp [syncDefaults, h]⟩

/-- Witness for C10: syncing `bareUser` (all three timestamps absent)
stores empty strings. -/
theorem absent_timestamp_empty_spec_witness :
    (∃ s, findUser (sync_user bareUser []).1 "user_bare" = some s ∧ s.created_at = "") ∧
    (∃ s, findUser (sync_user bareUser []).1 "user_bare" = some s ∧ s.updated_at = "") ∧
    (∃ s, findUser (sync_user bareUser []).1 "user_bare" = some s ∧ s.last_active_at = "") := by
  have h := absent_timestamp_empty_spec bareUser []
  exact ⟨h.1 rfl, h.2.1 rfl, h.2.2 rfl⟩

/-- C2: the stored primary email is the `email_address` of the first
list entry whose `id` equals `primary_email_address_id` when a matching
entry exists; with no match (a stale or absent pointer) it is the first
list element's address; with an empty list it is the empty string — and
the same holds for phone resolution over the phone list. -/
theorem resolve_primary_spec (u : ClerkUser) :
    (u.email_addresses = [] → (syncDefaults u).primary_email = "") ∧
    (∀ e0 rest, u.email_addresses = e0 :: rest →
      (∀ e ∈ u.email_addresses, ¬ u.primary_email_address_id = some e.id) →
      (syncDefaults u).primary_email = e0.email_address) ∧
    ((∃ e ∈ u.email_addresses, u.primary_email_address_id = some e.id) →
      ∃ l1 e l2, u.email_addresses = l1 ++ e :: l2 ∧
        u.primary_email_address_id = some e.id ∧
        (∀ x ∈ l1, ¬ u.primary_email_address_id = some x.id) ∧
        (syncDefaults u).primary_email = e.email_address) ∧
    (u.phone_numbers = [] → (syncDefaults u).phone_number = "") ∧
    (∀ p0 rest, u.phone_numbers = p0 :: rest →
      (∀ p ∈ u.phone_numbers, ¬ u.primary_phone_number_id = some p.id) →
      (syncDefaults u).phone_number = p0.phone_number) ∧
    ((∃ p ∈ u.phone_numbers, u.primary_phone_number_id = some p.id) →
      ∃ l1 p l2, u.phone_numbers = l1 ++ p :: l2 ∧
        u.primary_phone_number_id = some p.id ∧
        (∀ x ∈ l1, ¬ u.primary_phone_number_id = some x.id) ∧
        (syncDefaults u).phone_number = p.phone_number) := by
  refine ⟨?_, ?_, ?_, ?_, ?_, ?_⟩
  · intro h
    simp [syncDefaults, resolveEmail, h]
  · intro e0 rest hcons hnone
    have hfn : List.find? (fun e => u.primary_email_address_id == some e.id)
        u.email_addresses = Option.none := by
      rw [List.find?_eq_none]
      intro x hx
      simp only [beq_iff_eq]
      exact hnone x hx
    rw [hcons] at hfn
    simp [syncDefaults, resolveEmail, hcons, hfn]
  · intro hex
    obtain ⟨e1, he1, hid⟩ := hex
    have hsome : (List.find? (fun e => u.primary_email_address_id == some e.id)
        u.email_addresses).isSome :=
      List.find?_isSome.mpr ⟨e1, he1, by simp [beq_iff_eq, hid]⟩
    obtain ⟨a, ha⟩ := Option.isSome_iff_exists.mp hsome
    obtain ⟨l1, l2, hsplit, hqa, hall⟩ := find_first_split _ _ _ ha
    refine ⟨l1, a, l2, hsplit, by simpa [beq_iff_eq] using hqa, ?_, ?_⟩
    · intro x hx
      have := hall x hx
      simpa [beq_iff_eq] using this
    · cases hl : u.email_addresses with
      | nil => rw [hl] at he1; cases he1
      | cons e0 rest =>
        have ha2 := ha
        rw [hl] at ha2
        simp [syncDefaults, resolveEmail, hl, ha2]
  · intro h
    simp [syncDefaults, resolvePhone, h]
  · intro p0 rest hcons hnone
    have hfn : List.find? (fun p => u.primary_phone_number_id == some p.id)
        u.phone_numbers = Option.none := by
      rw [List.find?_eq_none]
      intro x hx
      simp only [beq_iff_eq]
      exact hnone x hx
    rw [hcons] at hfn
    simp [syncDefaults, resolvePhone, hcons, hfn]
  · intro hex
    obtain ⟨p1, hp1, hid⟩ := hex
    have hsome : (List.find? (fun p => u.primary_phone_number_id == some p.id)
        u.phone_numbers).isSome :=
      List.find?_isSome.mpr ⟨p1, hp1, by simp [beq_iff_eq, hid]⟩
    obtain ⟨a, ha⟩ := Option.isSome_iff_exists.mp hsome
    obtain ⟨l1, l2, hsplit, hqa, hall⟩ := find_first_split _ _ _ ha
    refine ⟨l1, a, l2, hsplit, by simpa [beq_iff_eq] using hqa, ?_, ?_⟩
    · intro x hx
      have := hall x hx
      simpa [beq_iff_eq] using this
    · cases hl : u.phone_numbers with
      | nil => rw [hl] at hp1; cases hp1
      | cons p0 rest =>
        have ha2 := ha
        rw [hl] at ha2
        simp [syncDefaults, resolvePhone, hl, ha2]

/-- Witness for C2: empty lists resolve to empty strings (`bareUser`);
on `sampleUser` the matching email entry is found. -/
theorem resolve_primary_spec_witness :
    (syncDefaults bareUser).primary_email = "" ∧
    (syncDefaults bareUser).phone_number = "" ∧
    (∃ l1 e l2, sampleUser.email_addresses = l1 ++ e :: l2 ∧
      sampleUser.primary_email_address_id = some e.id ∧
      (∀ x ∈ l1, ¬ sampleUser.primary_email_address_id = some x.id) ∧
      (syncDefaults sampleUser).primary_email = e.email_address) := by
  refine ⟨(resolve_primary_spec bareUser).1 rfl,
    (resolve_primary_spec bareUser).2.2.2.1 rfl,
    (resolve_primary_spec sampleUser).2.2.1 ?_⟩
  exact ⟨⟨"email_1", "test@example.com"⟩, by decide, by decide⟩

/-- C3: the handler answers an error exactly when signature verification
fails or payload validation fails — a missing svix header or a failing
cryptographic check yields 400 `"Invalid webhook signature"`, a
verified request whose body fails schema validation yields 400
`"Invalid payload format"` — and on every error path the table is left
untouched. -/
theorem error_paths_spec (crypto : Bool) (h : Headers) (body : Json) (db : Store) :
    ((h.svix_id = Option.none ∨ h.svix_timestamp = Option.none ∨
        h.svix_signature = Option.none ∨ crypto = false) →
      post crypto h body db = (db, bad "Invalid webhook signature")) ∧
    (svixVerifyOk crypto h = true → validateEvent body = Option.none →
      post crypto h body db = (db, bad "Invalid payload format")) ∧
    ((post crypto h body db).2.status = 400 ↔
      svixVerifyOk crypto h = false ∨ validateEvent body = Option.none) ∧
    ((post crypto h body db).2.status = 400 → (post crypto h body db).1 = db) := by
  have hB : (h.svix_id = Option.none ∨ h.svix_timestamp = Option.none ∨
      h.svix_signature = Option.none ∨ crypto = false) →
      svixVerifyOk crypto h = false := by
    rintro (h1 | h1 | h1 | h1) <;> simp [svixVerifyOk, h1]
  have hA : svixVerifyOk crypto h = false →
      post crypto h body db = (db, bad "Invalid webhook signature") := by
    intro hc
    simp [post, hc]
  have hC : svixVerifyOk crypto h = true → validateEvent body = Option.none →
      post crypto h body db = (db, bad "Invalid payload format") := by
    intro hv hval
    simp [post, hv, hval]
  refine ⟨fun hor => hA (hB hor), hC, ?_, ?_⟩
  all_goals by_cases hv : svixVerifyOk crypto h = true
  case pos =>
    cases hval : validateEvent body with
    | none =>
      rw [hC hv hval]
      simp [bad, hval]
    | some ev =>
      have hpost2 : (post crypto h body db).2.status = 200 := by
        simp only [post, hv, if_true, hval]
        by_cases ht1 : (ev.type == "user.created" || ev.type == "user.updated") = true
        · simp [ht1, sync_user, ok]
        · by_cases ht2 : (ev.type == "user.deleted") = true
          · simp [ht1, ht2, delete_user, ok]
          · simp [ht1, ht2, ok]
      rw [hpost2]
      simp [hv, hval]
  case neg =>
    simp only [Bool.not_eq_true] at hv
    rw [hA hv]
    simp [bad, hv]
  case pos =>
    cases hval : validateEvent body with
    | none =>
      rw [hC hv hval]
      intro _
      rfl
    | some ev =>
      have hpost2 : (post crypto h body db).2.status = 200 := by
        simp only [post, hv, if_true, hval]
        by_cases ht1 : (ev.type == "user.created" || ev.type == "user.updated") = true
        · simp [ht1, sync_user, ok]
        · by_cases ht2 : (ev.type == "user.deleted") = true
          · simp [ht1, ht2, delete_user, ok]
          · simp [ht1, ht2, ok]
      rw [hpost2]
      intro h400
      exact absurd h400 (by decide)
  case neg =>
    simp only [Bool.not_eq_true] at hv
    rw [hA hv]
    intro _
    rfl

/-- Witness for C3: a request with all headers but a failing signature
check, and a verified request with an invalid body (`data` missing). -/
theorem error_paths_spec_witness :
    post false sampleHeaders (Json.jobj []) [] =
      ([], bad "Invalid webhook signature") ∧
    post true sampleHeaders (Json.jobj []) [] =
      ([], bad "Invalid payload format") := by
  refine ⟨(error_paths_spec false sampleHeaders (Json.jobj []) []).1 ?_,
    (error_paths_spec true sampleHeaders (Json.jobj []) []).2.1 (by decide) (by decide)⟩
  exact Or.inr (Or.inr (Or.inr rfl))

/-- C6: a verified, schema-valid envelope whose `type` is none of the
three handled strings makes the handler answer 200 `"Event ignored"`
and leave the table unchanged — unrecognized types are accepted, never
rejected. -/
theorem unknown_event_ignored_spec (crypto : Bool) (h : Headers) (body : Json)
    (db : Store) (ev : ClerkWebhookEvent)
    (hv : svixVerifyOk crypto h = true)
    (hval : validateEvent body = some ev)
    (h1 : ¬ ev.type = "user.created") (h2 : ¬ ev.type = "user.updated")
    (h3 : ¬ ev.type = "user.deleted") :
    post crypto h body db = (db, ok "Event ignored") := by
  have hb1 : (ev.type == "user.created" || ev.type == "user.updated") = false := by
    simp [h1, h2]
  have hb2 : (ev.type == "user.deleted") = false := by
    simp [h3]
  simp [post, hv, hval, hb1, hb2]

/-- Witness for C6: a `session.created` event is ignored with a 200. -/
theorem unknown_event_ignored_spec_witness :
    post true sampleHeaders
      (Json.jobj [("type", Json.jstr "session.created"),
        ("data", Json.jobj [("id", Json.jstr "u1")])]) [] =
      ([], ok "Event ignored") := by
  exact unknown_event_ignored_spec true sampleHeaders
    (Json.jobj [("type", Json.jstr "session.created"),
      ("data", Json.jobj [("id", Json.jstr "u1")])]) []
    ⟨"session.created", ⟨"u1", some "", some "", some "", some false,
      Option.none, Option.none, Option.none, [], Option.none, [], Option.none⟩⟩
    (by decide) (by decide) (by decide) (by decide) (by decide)

/-- C9: payload validation ignores unknown fields: inserting any key
outside the declared schema anywhere in the `data` object neither makes
validation fail nor changes its result, and the whole handler behaves
identically with or without the extra field. -/
theorem extra_fields_ignored_spec (k : String) (v : Json)
    (l1 l2 : List (String × Json)) (hk : ¬ k ∈ userKeys) :
    validateClerkUser (Json.jobj (l1 ++ (k, v) :: l2)) =
      validateClerkUser (Json.jobj (l1 ++ l2)) ∧
    ∀ (t : String) (crypto : Bool) (hd : Headers) (db : Store),
      post crypto hd (Json.jobj [("type", Json.jstr t),
          ("data", Json.jobj (l1 ++ (k, v) :: l2))]) db =
      post crypto hd (Json.jobj [("type", Json.jstr t),
          ("data", Json.jobj (l1 ++ l2))]) db := by
  simp only [userKeys, List.mem_cons, List.not_mem_nil, or_false] at hk
  push_neg at hk
  obtain ⟨k1, k2, k3, k4, k5, k6, k7, k8, k9, k10, k11, k12⟩ := hk
  have hmain : validateClerkUser (Json.jobj (l1 ++ (k, v) :: l2)) =
      validateClerkUser (Json.jobj (l1 ++ l2)) := by
    simp only [validateClerkUser]
    rw [lookup_middle k v l1 l2 "id" (Ne.symm k1),
      lookup_middle k v l1 l2 "first_name" (Ne.symm k2),
      lookup_middle k v l1 l2 "last_name" (Ne.symm k3),
      lookup_middle k v l1 l2 "image_url" (Ne.symm k4),
      lookup_middle k v l1 l2 "two_factor_enabled" (Ne.symm k5),
      lookup_middle k v l1 l2 "created_at" (Ne.symm k6),
      lookup_middle k v l1 l2 "updated_at" (Ne.symm k7),
      lookup_middle k v l1 l2 "last_active_at" (Ne.symm k8),
      lookup_middle k v l1 l2 "email_addresses" (Ne.symm k9),
      lookup_middle k v l1 l2 "primary_email_address_id" (Ne.symm k10),
      lookup_middle k v l1 l2 "phone_numbers" (Ne.symm k11),
      lookup_middle k v l1 l2 "primary_phone_number_id" (Ne.symm k12)]
  refine ⟨hmain, ?_⟩
  intro t crypto hd db
  have hval : validateEvent (Json.jobj [("type", Json.jstr t),
      ("data", Json.jobj (l1 ++ (k, v) :: l2))]) =
      validateEvent (Json.jobj [("type", Json.jstr t),
      ("data", Json.jobj (l1 ++ l2))]) := by
    simp [validateEvent, lookup, hmain]
  simp only [post]
  rw [hval]

/-- Witness for C9: the `"deleted": true` flag that `tests.py` sends on
`user.deleted` events is ignored by validation and by the handler. -/
theorem extra_fields_ignored_spec_witness :
    validateClerkUser (Json.jobj [("id", Json.jstr "user_123"),
        ("deleted", Json.jbool true)]) =
      validateClerkUser (Json.jobj [("id", Json.jstr "user_123")]) ∧
    post true sampleHeaders (Json.jobj [("type", Json.jstr "user.deleted"),
        ("data", Json.jobj [("id", Json.jstr "user_123"),
          ("deleted", Json.jbool true)])]) [] =
      post true sampleHeaders (Json.jobj [("type", Json.jstr "user.deleted"),
        ("data", Json.jobj [("id", Json.jstr "user_123")])]) [] := by
  have h := extra_fields_ignored_spec "deleted" (Json.jbool true)
    [("id", Json.jstr "user_123")] [] (by decide)
  exact ⟨h.1, h.2 "user.deleted" true sampleHeaders []⟩

/-- Helper: removing rows preserves the pairwise-distinct-email
constraint. -/
theorem uniqueB_filter (p : TenantUser → Bool) :
    ∀ l : Store, emailsUniqueB l = true → emailsUniqueB (l.filter p) = true := by
  intro l
  induction l with
  | nil => intro h; exact h
  | cons r rest ih =>
    intro hu
    simp only [emailsUniqueB, Bool.and_eq_true, List.all_eq_true] at hu
    obtain ⟨hall, hrest⟩ := hu
    rw [List.filter_cons]
    by_cases hp : p r = true
    · rw [if_pos hp]
      simp only [emailsUniqueB, Bool.and_eq_true, List.all_eq_true]
      exact ⟨fun x hx => hall x (List.mem_filter.mp hx).1, ih hrest⟩
    · rw [if_neg hp]
      exact ih hrest

/-- Helper: under the pairwise-distinct-email constraint, rows with
different keys carry different emails. -/
theorem uniqueB_pairs :
    ∀ l : Store, emailsUniqueB l = true →
      ∀ r1, r1 ∈ l → ∀ r2, r2 ∈ l → ¬ r1.user_id = r2.user_id →
      ¬ r1.primary_email = r2.primary_email := by
  intro l
  induction l with
  | nil => intro _ r1 h1; cases h1
  | cons r rest ih =>
    intro hu r1 h1 r2 h2 hne
    simp only [emailsUniqueB, Bool.and_eq_true, List.all_eq_true] at hu
    obtain ⟨hall, hrest⟩ := hu
    have hall2 : ∀ x ∈ rest, ¬ x.primary_email = r.primary_email := by
      intro x hx
      simpa using hall x hx
    rcases List.mem_cons.mp h1 with rfl | h1r
    · rcases List.mem_cons.mp h2 with rfl | h2r
      · exact absurd rfl hne
      · intro he
        exact hall2 r2 h2r he.symm
    · rcases List.mem_cons.mp h2 with rfl | h2r
      · exact hall2 r1 h1r
      · exact ih hrest r1 h1r r2 h2r hne

/-- Helper: every table state reachable through the webhook writes
satisfies the declared `unique=True` constraint on `primary_email`. -/
theorem reachable_unique : ∀ db : Store, Reachable db → emailsUniqueB db = true := by
  intro db h
  induction h with
  | empty => rfl
  | sync u db0 db2 hr heq ih =>
    simp only [db_sync] at heq
    split at heq
    case isTrue hcond =>
      cases heq
      exact hcond
    case isFalse hcond => cases heq
  | del uid db0 hr ih =>
    exact uniqueB_filter _ db0 ih

/-- C8 (refuting the claim as stated): no reachable table state holds
two rows with distinct identifiers and the same `primary_email` — the
`unique=True` declaration on the model field rules the state out. -/
theorem primary_email_dup_unreachable :
    ¬ ∃ db : Store, Reachable db ∧ ∃ r1, r1 ∈ db ∧ ∃ r2, r2 ∈ db ∧
      ¬ r1.user_id = r2.user_id ∧ r1.primary_email = r2.primary_email := by
  rintro ⟨db, hr, r1, h1, r2, h2, hne, heq⟩
  exact uniqueB_pairs db (reachable_unique db hr) r1 h1 r2 h2 hne heq

/-- C8 (amended): the store does enforce uniqueness of `primary_email`
by construction (`models.py` declares the field `unique=True`): in
every reachable table state, rows with distinct identifiers carry
distinct `primary_email` values. -/
theorem primary_email_unique_enforced (db : Store) (hr : Reachable db) :
    ∀ r1, r1 ∈ db → ∀ r2, r2 ∈ db → ¬ r1.user_id = r2.user_id →
      ¬ r1.primary_email = r2.primary_email :=
  uniqueB_pairs db (reachable_unique db hr)

/-- Witness for the amended C8: after syncing two users, their rows
necessarily carry different emails. -/
theorem primary_email_unique_enforced_witness :
    ¬ (newUser "a" (syncDefaults userA)).primary_email =
      (newUser "b" (syncDefaults userB)).primary_email := by
  have hr1 : Reachable [newUser "a" (syncDefaults userA)] :=
    Reachable.sync userA [] [newUser "a" (syncDefaults userA)]
      Reachable.empty (by decide)
  have hr2 : Reachable [newUser "a" (syncDefaults userA),
      newUser "b" (syncDefaults userB)] :=
    Reachable.sync userB [newUser "a" (syncDefaults userA)]
      [newUser "a" (syncDefaults userA), newUser "b" (syncDefaults userB)]
      hr1 (by decide)
  exact primary_email_unique_enforced _ hr2 _ (by decide) _ (by decide) (by decide)

end Clerk
